import Mathlib

/-!
Shallow embedding of the two variants of the educational-accessibility
catalog application and proofs about its state mutations and report
generation.

The repository contains two source files implementing the same abstract
design:
* `src/index.tsx` — the flat variant: each `Resource` carries a single
  `downloadCount` and its own `comments` list (namespace `FlatCatalog`).
* `src/unnamed/part_000` — the nested variant: each `Experience` carries a
  list of `DownloadableFile`s, each with its own `count`; comments are
  collected globally (namespace `NestedCatalog`).

External effects (the wall clock `Date.now()`, the formatted date string,
the outcome of the Gemini call) are modelled as explicit parameters.
-/

/-- Model of JavaScript `String.prototype.trim()`: drop whitespace from
both ends. -/
def jsTrim (s : String) : String :=
  String.mk (((s.data.dropWhile Char.isWhitespace).reverse.dropWhile Char.isWhitespace).reverse)

/-- Model of the JavaScript expression `s.replace(/"/g, '""')` at the
character-list level: every double-quote character is doubled. -/
def doubleQuotes : List Char → List Char
  | [] => []
  | c :: cs => if c = '"' then '"' :: '"' :: doubleQuotes cs else c :: doubleQuotes cs

/-- `s.replace(/"/g, '""')` on strings. -/
def replaceQuotesDoubled (s : String) : String :=
  String.mk (doubleQuotes s.data)

/-- A standard CSV reader for a quoted field body: consumes characters
after the opening quote; a doubled `""` yields a literal quote, a single
closing quote ends the field, returning the decoded body and the rest of
the input. -/
def parseQuotedBody : List Char → Option (List Char × List Char)
  | [] => none
  | c :: rest =>
    if c = '"' then
      match rest with
      | '"' :: rest2 => (parseQuotedBody rest2).map (fun p => ('"' :: p.1, p.2))
      | _ => some ([], rest)
    else
      (parseQuotedBody rest).map (fun p => (c :: p.1, p.2))

/-- A standard CSV reader for one quoted field: expects an opening quote,
then a body per `parseQuotedBody`. -/
def parseQuotedField (input : List Char) : Option (String × List Char) :=
  match input with
  | '"' :: rest => (parseQuotedBody rest).map (fun p => (String.mk p.1, p.2))
  | _ => none

namespace FlatCatalog

/-- `interface Comment` of `src/index.tsx`. -/
structure Comment where
  id : String
  author : String
  text : String
  date : String
deriving DecidableEq, Repr

/-- `interface Resource` of `src/index.tsx`; `type` is the string
`"pdf"` or `"audio"`. -/
structure Resource where
  id : String
  title : String
  description : String
  type : String
  url : String
  downloadCount : Nat
  comments : List Comment
deriving DecidableEq, Repr

/-- `INITIAL_RESOURCES` of `src/index.tsx`. -/
def INITIAL_RESOURCES : List Resource :=
  [ { id := "1"
    , title := "Guía de Pautas WCAG 2.1"
    , description := "Documento técnico completo sobre los principios de percepción, operación, comprensión y robustez para accesibilidad web."
    , type := "pdf"
    , url := "#"
    , downloadCount := 156
    , comments := [ { id := "c1", author := "Dev_Inclusivo", text := "Esencial para entender los criterios de conformidad A y AA.", date := "2023-11-10" } ] }
  , { id := "2"
    , title := "Podcast: Diseño Universal para el Aprendizaje (DUA)"
    , description := "Episodio 01: Estrategias para eliminar barreras en el aula y crear currículos flexibles. Duración: 35 min."
    , type := "audio"
    , url := "#"
    , downloadCount := 98
    , comments := [ { id := "c2", author := "Profe_Ana", text := "Muy útil la sección sobre múltiples formas de representación.", date := "2023-11-12" } ] }
  , { id := "3"
    , title := "Manual de Lectura Fácil"
    , description := "Metodologías para la adaptación de textos y creación de contenidos cognitivamente accesibles."
    , type := "pdf"
    , url := "#"
    , downloadCount := 210
    , comments := [] } ]

/-- `handleDownload` of `src/index.tsx`: map over the resources,
incrementing `downloadCount` of the resource whose id matches. -/
def handleDownload (resources : List Resource) (id : String) : List Resource :=
  resources.map (fun r =>
    if r.id = id then { r with downloadCount := r.downloadCount + 1 } else r)

/-- The `newComment` object built inside `handleAddComment` of
`src/index.tsx`: `id` is `Date.now().toString()` (`now` is the clock
reading), `author` is `author || "Usuario"` (the empty string is the only
falsy string), `date` is the formatted current date (an input here). -/
def newComment (now : Nat) (text author date : String) : Comment :=
  { id := toString now
  , author := if author = "" then "Usuario" else author
  , text := text
  , date := date }

/-- `handleAddComment` of `src/index.tsx`: prepend the new comment to the
comments of the resource whose id matches. -/
def handleAddComment (resources : List Resource) (id : String)
    (text author : String) (now : Nat) (date : String) : List Resource :=
  let c := newComment now text author date
  resources.map (fun r =>
    if r.id = id then { r with comments := c :: r.comments } else r)

/-- `handleSubmitComment` of the `ResourceCard` component of
`src/index.tsx`: `if (!newComment.trim()) return;` then calls
`onAddComment`. -/
def handleSubmitComment (resources : List Resource) (id : String)
    (newCommentText authorName : String) (now : Nat) (date : String) : List Resource :=
  if jsTrim newCommentText = "" then resources
  else handleAddComment resources id newCommentText authorName now date

/-- `exportStats` of `src/index.tsx`: the CSV text it assembles into
`csvContent` (the DOM download plumbing is outside the model). Note the
title is wrapped in quotes with no quote doubling. -/
def exportStats (resources : List Resource) : String :=
  let headers := "ID,Titulo,Tipo,Descargas,Total_Comentarios\n"
  let rows := String.intercalate "\n" (resources.map (fun r =>
    r.id ++ ",\"" ++ r.title ++ "\"," ++ r.type ++ ","
      ++ toString r.downloadCount ++ "," ++ toString r.comments.length))
  "data:text/csv;charset=utf-8," ++ headers ++ rows

/-- The `aiAnalysis` / `isAnalyzing` slice of the UI state touched by
`analyzeWithGemini`. -/
structure AnalysisState where
  aiAnalysis : Option String
  isAnalyzing : Bool
deriving DecidableEq, Repr

/-- `analyzeWithGemini` of `src/index.tsx`, modelled on the outcome of the
awaited external call: on success `aiAnalysis` is set to the response
text, on any error the fixed fallback string is set instead; the
`finally` block clears `isAnalyzing` on both paths. The error cause is
ignored (`catch (error)` only logs it). -/
def analyzeWithGemini (result : Except String String) : AnalysisState :=
  match result with
  | Except.ok text =>
      { aiAnalysis := some text, isAnalyzing := false }
  | Except.error _ =>
      { aiAnalysis := some "Error de conexión con el asistente. Por favor verifica la configuración."
      , isAnalyzing := false }

/-- The comments list stored at position `i` of the resource list, when
it exists. -/
def commentsAt (resources : List Resource) (i : Nat) : Option (List Comment) :=
  (resources[i]?).map Resource.comments

/-- The download counter stored at position `i` of the resource list,
when it exists. -/
def downloadCountAt (resources : List Resource) (i : Nat) : Option Nat :=
  (resources[i]?).map Resource.downloadCount

/-- One comment-form submission event in the flat variant: the targeted
resource id, the field values, and the clock reading and formatted date
observed at the time of the call. -/
structure Submission where
  rid : String
  text : String
  author : String
  now : Nat
  date : String
deriving DecidableEq, Repr

/-- Replaying a sequence of flat-variant `handleAddComment` calls, oldest
first, starting from a loaded catalog. -/
def replay (resources : List Resource) (subs : List Submission) : List Resource :=
  subs.foldl (fun rs s => handleAddComment rs s.rid s.text s.author s.now s.date) resources

/-- Every field of a `Resource` except `downloadCount`. -/
def frameWithoutCount (r : Resource) :
    String × String × String × String × String × List Comment :=
  (r.id, r.title, r.description, r.type, r.url, r.comments)

/-- Every field of a `Resource` except `comments`. -/
def frameWithoutComments (r : Resource) :
    String × String × String × String × String × Nat :=
  (r.id, r.title, r.description, r.type, r.url, r.downloadCount)

end FlatCatalog

namespace NestedCatalog

/-- `interface DownloadableFile` of `src/unnamed/part_000`. -/
structure DownloadableFile where
  id : String
  label : String
  filename : String
  count : Nat
deriving DecidableEq, Repr

/-- `interface Experience` of `src/unnamed/part_000`. -/
structure Experience where
  id : Int
  title : String
  audioSrc : String
  files : List DownloadableFile
deriving DecidableEq, Repr

/-- `interface Comment` of `src/unnamed/part_000`; `email` is optional in
the interface (`email?: string`). -/
structure Comment where
  id : String
  author : String
  email : Option String
  text : String
  date : String
deriving DecidableEq, Repr

/-- `INITIAL_EXPERIENCES` of `src/unnamed/part_000`. -/
def INITIAL_EXPERIENCES : List Experience :=
  [ { id := 1
    , title := "1. Escribe con tu voz: experimenta la accesibilidad con TalkBack"
    , audioSrc := "exp1-audio.mp3"
    , files :=
      [ { id := "e1-f1", label := "Descargar Guía Escrita", filename := "exp1-guia.pdf", count := 0 }
      , { id := "e1-f2", label := "Descargar Plantilla de Observación Docente", filename := "exp1-observacion-docente.pdf", count := 0 }
      , { id := "e1-f3", label := "Descargar Plantilla de Reflexión Estudiantil", filename := "exp1-reflexion-estudiante.pdf", count := 0 } ] }
  , { id := 2
    , title := "2. Descubre con tus oídos: explorando el mundo con Google Lens"
    , audioSrc := "exp2-audio.mp3"
    , files :=
      [ { id := "e2-f1", label := "Descargar Guía Escrita", filename := "exp2-guia.pdf", count := 0 }
      , { id := "e2-f2", label := "Plantilla de Observación Docente", filename := "exp2-observacion-docente.pdf", count := 0 }
      , { id := "e2-f3", label := "Plantilla de Reflexión Estudiantil", filename := "exp2-reflexion-estudiante.pdf", count := 0 } ] }
  , { id := 3
    , title := "3. Escucha para aprender: acceso a la información escrita con Lookout"
    , audioSrc := "exp3-audio.mp3"
    , files :=
      [ { id := "e3-f1", label := "Descargar Guía Escrita", filename := "exp3-guia.pdf", count := 0 }
      , { id := "e3-f2", label := "Plantilla de Observación Docente", filename := "exp3-observacion-docente.pdf", count := 0 }
      , { id := "e3-f3", label := "Plantilla de Reflexión Estudiantil", filename := "exp3-reflexion-estudiante.pdf", count := 0 } ] } ]

/-- `handleDownload` of `src/unnamed/part_000`: for the experience whose
id matches `expId`, map over its files incrementing the count of the
file whose id matches `fileId`; every other experience is returned
unchanged. -/
def handleDownload (experiences : List Experience) (expId : Int) (fileId : String) :
    List Experience :=
  experiences.map (fun exp =>
    if exp.id ≠ expId then exp
    else { exp with
           files := exp.files.map (fun f =>
             if f.id = fileId then { f with count := f.count + 1 } else f) })

/-- The `newComment` object built inside `handleAddComment` of
`src/unnamed/part_000`: `id` is `Date.now().toString()`, `author` is the
name as given, `email` the email as given, `date` the formatted current
timestamp (an input here). -/
def newComment (name email text : String) (now : Nat) (date : String) : Comment :=
  { id := toString now, author := name, email := some email, text := text, date := date }

/-- `handleAddComment` of `src/unnamed/part_000`: prepend the new comment
to the global comments list. -/
def handleAddComment (comments : List Comment) (name email text : String)
    (now : Nat) (date : String) : List Comment :=
  newComment name email text now date :: comments

/-- `handleSubmit` of the `CommentForm` component of
`src/unnamed/part_000`: `if (!name.trim() || !text.trim()) return;` then
calls `onSubmit` (which is `handleAddComment`). -/
def handleSubmit (comments : List Comment) (name email text : String)
    (now : Nat) (date : String) : List Comment :=
  if jsTrim name = "" ∨ jsTrim text = "" then comments
  else handleAddComment comments name email text now date

/-- One row of the downloads section of `exportData`:
`` `"${exp.title}","${f.filename}",${f.count}\n` `` — title and filename
are wrapped in quotes with no quote doubling. -/
def downloadRow (title : String) (f : DownloadableFile) : String :=
  "\"" ++ title ++ "\",\"" ++ f.filename ++ "\"," ++ toString f.count ++ "\n"

/-- One row of the comments section of `exportData`:
`` `"${c.date}","${c.author}","${c.email || ''}","${c.text.replace(/"/g, '""')}"\n` ``
— only the comment text has its quotes doubled. -/
def commentRow (c : Comment) : String :=
  "\"" ++ c.date ++ "\",\"" ++ c.author ++ "\",\"" ++ c.email.getD "" ++ "\",\""
    ++ replaceQuotesDoubled c.text ++ "\"\n"

/-- `exportData` of `src/unnamed/part_000`: the CSV text accumulated into
`csvContent` (the DOM download plumbing is outside the model). -/
def exportData (experiences : List Experience) (comments : List Comment) : String :=
  "data:text/csv;charset=utf-8,"
    ++ "--- REPORTE DE DESCARGAS ---\n"
    ++ "Experiencia,Archivo,Descargas\n"
    ++ String.join (experiences.map (fun exp => String.join (exp.files.map (downloadRow exp.title))))
    ++ "\n--- REPORTE DE COMENTARIOS ---\n"
    ++ "Fecha,Autor,Email,Comentario\n"
    ++ String.join (comments.map commentRow)

/-- The `aiAnalysis` / `isAnalyzing` slice of the UI state touched by
`analyzeWithGemini`. -/
structure AnalysisState where
  aiAnalysis : Option String
  isAnalyzing : Bool
deriving DecidableEq, Repr

/-- `analyzeWithGemini` of `src/unnamed/part_000`, modelled on the outcome
of the awaited external call: on success `aiAnalysis` is set to the
response text, on any error the fixed fallback string; the `finally`
block clears `isAnalyzing` on both paths. The error cause is discarded
unexamined. -/
def analyzeWithGemini (result : Except String String) : AnalysisState :=
  match result with
  | Except.ok text =>
      { aiAnalysis := some text, isAnalyzing := false }
  | Except.error _ =>
      { aiAnalysis := some "Error conectando con la IA. Asegúrate de tener conexión a internet."
      , isAnalyzing := false }

/-- The download counter of file `j` of experience `i`, when both
positions exist. -/
def countAt (experiences : List Experience) (i j : Nat) : Option Nat :=
  (experiences[i]?).bind (fun e => (e.files[j]?).map DownloadableFile.count)

/-- One comment-form submission event: the field values plus the clock
reading and formatted date observed at the time of the call. -/
structure Submission where
  name : String
  email : String
  text : String
  now : Nat
  date : String
deriving DecidableEq, Repr

/-- Replaying a sequence of `handleAddComment` calls, oldest first,
starting from the empty collection (the nested variant's seed). -/
def replay (subs : List Submission) : List Comment :=
  subs.foldl (fun cs s => handleAddComment cs s.name s.email s.text s.now s.date) []

/-- Replaying a sequence of `handleAddComment` calls, oldest first,
starting from an arbitrary loaded collection. -/
def replayFrom (initial : List Comment) (subs : List Submission) : List Comment :=
  subs.foldl (fun cs s => handleAddComment cs s.name s.email s.text s.now s.date) initial

/-- Every field of a `DownloadableFile` except `count`. -/
def fileFrame (f : DownloadableFile) : String × String × String :=
  (f.id, f.label, f.filename)

/-- Every field of an `Experience` except its files' counters. -/
def expFrame (e : Experience) : Int × String × String × List (String × String × String) :=
  (e.id, e.title, e.audioSrc, e.files.map fileFrame)

end NestedCatalog

example : jsTrim "   " = "" := by decide
example : jsTrim "  ab " = "ab" := by decide
example : replaceQuotesDoubled "a\"b" = "a\"\"b" := by decide
example : parseQuotedField ("\"a\"\"b\",rest".data) = some ("a\"b", ",rest".data) := by decide
example :
    NestedCatalog.countAt (NestedCatalog.handleDownload NestedCatalog.INITIAL_EXPERIENCES 1 "e1-f2") 0 1
      = some 1 := by decide
example :
    NestedCatalog.countAt (NestedCatalog.handleDownload NestedCatalog.INITIAL_EXPERIENCES 1 "e1-f2") 0 0
      = some 0 := by decide
example :
    FlatCatalog.handleDownload FlatCatalog.INITIAL_RESOURCES "nope"
      = FlatCatalog.INITIAL_RESOURCES := by decide

/-! ### Helper lemmas -/

/-- A quote-doubled body followed by a closing quote and a newline parses
back to the original characters, consuming exactly the field. -/
theorem parseQuotedBody_doubleQuotes (cs rest : List Char) :
    parseQuotedBody (doubleQuotes cs ++ '"' :: '\n' :: rest) = some (cs, '\n' :: rest) := by
  induction cs with
  | nil => simp [doubleQuotes, parseQuotedBody]
  | cons c cs ih =>
    by_cases hc : c = '"'
    · subst hc
      simp [doubleQuotes, parseQuotedBody, ih]
    · rw [doubleQuotes]
      simp only [if_neg hc, List.cons_append]
      rw [parseQuotedBody.eq_def]
      simp [hc, ih]

/-- A standard CSV reader recovers the original text from a quoted,
quote-doubled field terminated by a newline. -/
theorem parseQuotedField_roundtrip (t : String) (rest : List Char) :
    parseQuotedField ('"' :: (doubleQuotes t.data ++ '"' :: '\n' :: rest))
      = some (t, '\n' :: rest) := by
  cases t with
  | mk data => simp [parseQuotedField, parseQuotedBody_doubleQuotes]

/-- Ids of a replayed comment collection are the submissions' stringified
clock readings, newest first, followed by the accumulator's ids. -/
theorem foldl_addComment_map_id (subs : List NestedCatalog.Submission)
    (acc : List NestedCatalog.Comment) :
    ((subs.foldl
        (fun cs s => NestedCatalog.handleAddComment cs s.name s.email s.text s.now s.date)
        acc).map NestedCatalog.Comment.id)
      = (subs.map (fun s => toString s.now)).reverse ++ acc.map NestedCatalog.Comment.id := by
  induction subs generalizing acc with
  | nil => simp
  | cons s subs ih =>
    rw [List.foldl_cons, ih]
    simp [NestedCatalog.handleAddComment, NestedCatalog.newComment, List.append_assoc]

/-! ### Claims -/

/-- C3 counterexample: the claim asserts that every free-text field —
resource titles included — has its internal double quotes doubled so that
a standard CSV reader recovers the original text. In `exportData` the
title field is merely wrapped in quotes: for the title `Guia "DUA" 2024`
the produced downloads-section row starts with an undoubled field, the
CSV reader recovers only `Guia `, and the rendered row differs from the
properly escaped rendering. -/
theorem csv_title_not_escaped_counterexample :
    ((parseQuotedField (NestedCatalog.downloadRow "Guia \"DUA\" 2024"
        { id := "f1", label := "L", filename := "f.pdf", count := 3 }).data).map Prod.fst
      = some "Guia ")
    ∧ "Guia " ≠ "Guia \"DUA\" 2024"
    ∧ NestedCatalog.downloadRow "Guia \"DUA\" 2024"
        { id := "f1", label := "L", filename := "f.pdf", count := 3 }
      ≠ "\"" ++ replaceQuotesDoubled "Guia \"DUA\" 2024" ++ "\",\"f.pdf\",3\n" := by
  refine ⟨by decide, by decide, by decide⟩

/-- C3 (amended): in the two-section variant's comments section the
comment text field is wrapped in double quotes with every internal double
quote doubled, and a standard CSV reader recovers the original comment
text from that field; title/filename/date/author/email fields are wrapped
in quotes but not quote-doubled. -/
theorem csv_comment_text_escaped_roundtrip (c : NestedCatalog.Comment) (rest : List Char) :
    NestedCatalog.commentRow c
      = "\"" ++ c.date ++ "\",\"" ++ c.author ++ "\",\"" ++ c.email.getD "" ++ "\",\""
          ++ replaceQuotesDoubled c.text ++ "\"\n"
    ∧ parseQuotedField ('"' :: ((replaceQuotesDoubled c.text).data ++ '"' :: '\n' :: rest))
      = some (c.text, '\n' :: rest) := by
  refine ⟨rfl, ?_⟩
  have h := parseQuotedField_roundtrip c.text rest
  simpa [replaceQuotesDoubled] using h

/-- C4: a comment submission whose text trims to the empty string is
rejected by the form handler of either variant: the resource list (flat
variant) and the global comment collection (nested variant) are returned
unchanged. -/
theorem whitespace_comment_rejected
    (resources : List FlatCatalog.Resource) (id t a : String) (n : Nat) (d : String)
    (ht : jsTrim t = "")
    (comments : List NestedCatalog.Comment) (name email t2 : String) (n2 : Nat) (d2 : String)
    (ht2 : jsTrim t2 = "") :
    FlatCatalog.handleSubmitComment resources id t a n d = resources
    ∧ NestedCatalog.handleSubmit comments name email t2 n2 d2 = comments := by
  constructor
  · simp [FlatCatalog.handleSubmitComment, ht]
  · simp [NestedCatalog.handleSubmit, ht2]

/-- C4 witness: whitespace-only texts on the seed data. -/
theorem whitespace_comment_rejected_witness :
    FlatCatalog.handleSubmitComment FlatCatalog.INITIAL_RESOURCES "1" "   " "Ana" 5 "2024-01-01"
      = FlatCatalog.INITIAL_RESOURCES
    ∧ NestedCatalog.handleSubmit [] "Ana" "" " \t " 5 "2024-01-01" = [] :=
  whitespace_comment_rejected FlatCatalog.INITIAL_RESOURCES "1" "   " "Ana" 5 "2024-01-01"
    (by decide) [] "Ana" "" " \t " 5 "2024-01-01" (by decide)

/-- C6: on any failure of the external text-generation call, both
variants display exactly the fixed fallback message and clear the
in-progress flag, and the result does not depend on the error cause. -/
theorem gemini_failure_fallback (e1 e2 : String) :
    FlatCatalog.analyzeWithGemini (Except.error e1)
      = { aiAnalysis := some "Error de conexión con el asistente. Por favor verifica la configuración."
        , isAnalyzing := false }
    ∧ NestedCatalog.analyzeWithGemini (Except.error e1)
      = { aiAnalysis := some "Error conectando con la IA. Asegúrate de tener conexión a internet."
        , isAnalyzing := false }
    ∧ FlatCatalog.analyzeWithGemini (Except.error e1) = FlatCatalog.analyzeWithGemini (Except.error e2)
    ∧ NestedCatalog.analyzeWithGemini (Except.error e1) = NestedCatalog.analyzeWithGemini (Except.error e2) :=
  ⟨rfl, rfl, rfl, rfl⟩

/-- C8: report generation is a deterministic pure function of the state
snapshot — equal snapshots yield byte-identical CSV text in both
variants. -/
theorem report_deterministic
    (rs1 rs2 : List FlatCatalog.Resource) (h1 : rs1 = rs2)
    (es1 es2 : List NestedCatalog.Experience) (cs1 cs2 : List NestedCatalog.Comment)
    (h2 : es1 = es2) (h3 : cs1 = cs2) :
    FlatCatalog.exportStats rs1 = FlatCatalog.exportStats rs2
    ∧ NestedCatalog.exportData es1 cs1 = NestedCatalog.exportData es2 cs2 := by
  subst h1; subst h2; subst h3; exact ⟨rfl, rfl⟩

/-- C8 witness: the seed snapshots. -/
theorem report_deterministic_witness :
    FlatCatalog.exportStats FlatCatalog.INITIAL_RESOURCES
      = FlatCatalog.exportStats FlatCatalog.INITIAL_RESOURCES
    ∧ NestedCatalog.exportData NestedCatalog.INITIAL_EXPERIENCES []
      = NestedCatalog.exportData NestedCatalog.INITIAL_EXPERIENCES [] :=
  report_deterministic FlatCatalog.INITIAL_RESOURCES FlatCatalog.INITIAL_RESOURCES rfl
    NestedCatalog.INITIAL_EXPERIENCES NestedCatalog.INITIAL_EXPERIENCES [] [] rfl rfl

/-- C9: in the flat variant (which allows anonymous names) a blank
(empty-string) author yields the placeholder author `"Usuario"` on the
constructed comment; in the nested variant a name that trims to blank is
rejected by the form-level check, so the collection is unchanged. -/
theorem blank_author_placeholder_or_rejected
    (n : Nat) (t d : String)
    (comments : List NestedCatalog.Comment) (name email t2 : String) (n2 : Nat) (d2 : String)
    (hname : jsTrim name = "") :
    (FlatCatalog.newComment n t "" d).author = "Usuario"
    ∧ NestedCatalog.handleSubmit comments name email t2 n2 d2 = comments := by
  refine ⟨rfl, ?_⟩
  simp [NestedCatalog.handleSubmit, hname]

/-- C9 witness: a concrete blank-name submission. -/
theorem blank_author_placeholder_or_rejected_witness :
    (FlatCatalog.newComment 7 "Muy útil" "" "2024-01-01").author = "Usuario"
    ∧ NestedCatalog.handleSubmit [] "  " "a@b.c" "Muy útil" 7 "2024-01-01" = [] :=
  blank_author_placeholder_or_rejected 7 "Muy útil" "2024-01-01" [] "  " "a@b.c" "Muy útil" 7
    "2024-01-01" (by decide)

/-- C1: calling the nested-variant download mutation once with a matching
(experience, file) pair increments exactly that file's counter by 1; the
counter of every other file position (in the same or any other
experience) is unchanged, and the catalog length is preserved. Likewise,
the flat-variant download mutation with a matching resource id increments
exactly that resource's counter by 1 and leaves every other resource's
counter unchanged. Ids are assumed unique as per the catalog invariant. -/
theorem download_increments_only_matching
    (es : List NestedCatalog.Experience) (i j : Nat)
    (e : NestedCatalog.Experience) (f : NestedCatalog.DownloadableFile)
    (he : es[i]? = some e) (hf : e.files[j]? = some f)
    (hexp : ∀ k, k < es.length → k ≠ i →
      (es[k]?).map NestedCatalog.Experience.id ≠ some e.id)
    (hfile : ∀ k, k < e.files.length → k ≠ j →
      (e.files[k]?).map NestedCatalog.DownloadableFile.id ≠ some f.id)
    (resources : List FlatCatalog.Resource) (m : Nat) (r : FlatCatalog.Resource)
    (hrm : resources[m]? = some r)
    (hres : ∀ k, k < resources.length → k ≠ m →
      (resources[k]?).map FlatCatalog.Resource.id ≠ some r.id) :
    (NestedCatalog.handleDownload es e.id f.id).length = es.length
    ∧ NestedCatalog.countAt (NestedCatalog.handleDownload es e.id f.id) i j
        = some (f.count + 1)
    ∧ (∀ a b : Nat, ¬(a = i ∧ b = j) →
        NestedCatalog.countAt (NestedCatalog.handleDownload es e.id f.id) a b
          = NestedCatalog.countAt es a b)
    ∧ FlatCatalog.downloadCountAt (FlatCatalog.handleDownload resources r.id) m
        = some (r.downloadCount + 1)
    ∧ ∀ k, k ≠ m →
        FlatCatalog.downloadCountAt (FlatCatalog.handleDownload resources r.id) k
          = FlatCatalog.downloadCountAt resources k := by
  refine ⟨by simp [NestedCatalog.handleDownload], ?_, ?_, ?_, ?_⟩
  · simp [NestedCatalog.countAt, NestedCatalog.handleDownload, List.getElem?_map, he, hf]
  · intro a b hab
    simp only [NestedCatalog.countAt, NestedCatalog.handleDownload, List.getElem?_map]
    cases hea : es[a]? with
    | none => rfl
    | some ea =>
      by_cases hai : a = i
      · subst hai
        rw [he] at hea
        cases Option.some.inj hea
        have hbj : b ≠ j := fun hb => hab ⟨rfl, hb⟩
        cases hfb : e.files[b]? with
        | none => simp [List.getElem?_map, hfb]
        | some fb =>
          have hblen : b < e.files.length := (List.getElem?_eq_some_iff.mp hfb).1
          have hne : fb.id ≠ f.id := by
            have h2 := hfile b hblen hbj
            rw [hfb] at h2
            simpa using h2
          simp [List.getElem?_map, hfb, hne]
      · have halen : a < es.length := (List.getElem?_eq_some_iff.mp hea).1
        have hne : ea.id ≠ e.id := by
          have h2 := hexp a halen hai
          rw [hea] at h2
          simpa using h2
        simp [hne]
  · simp [FlatCatalog.downloadCountAt, FlatCatalog.handleDownload, List.getElem?_map, hrm]
  · intro k hk
    simp only [FlatCatalog.downloadCountAt, FlatCatalog.handleDownload, List.getElem?_map]
    cases hrk : resources[k]? with
    | none => rfl
    | some rk =>
      have hklen : k < resources.length := (List.getElem?_eq_some_iff.mp hrk).1
      have hne : rk.id ≠ r.id := by
        have h2 := hres k hklen hk
        rw [hrk] at h2
        simpa using h2
      simp [hne]

/-- C1 witness: on the nested seed catalog, downloading `(1, "e1-f1")`
takes the `exp1-guia.pdf` counter from 0 to 1 and leaves file `(1, 2)`
untouched; on the flat seed catalog, downloading resource `"1"` takes its
counter from 156 to 157 and leaves resource 2 untouched. -/
theorem download_increments_only_matching_witness :
    NestedCatalog.countAt
        (NestedCatalog.handleDownload NestedCatalog.INITIAL_EXPERIENCES 1 "e1-f1") 0 0
      = some 1
    ∧ NestedCatalog.countAt
        (NestedCatalog.handleDownload NestedCatalog.INITIAL_EXPERIENCES 1 "e1-f1") 1 2
      = NestedCatalog.countAt NestedCatalog.INITIAL_EXPERIENCES 1 2
    ∧ FlatCatalog.downloadCountAt
        (FlatCatalog.handleDownload FlatCatalog.INITIAL_RESOURCES "1") 0 = some 157
    ∧ FlatCatalog.downloadCountAt
        (FlatCatalog.handleDownload FlatCatalog.INITIAL_RESOURCES "1") 1
      = FlatCatalog.downloadCountAt FlatCatalog.INITIAL_RESOURCES 1 := by
  have h := download_increments_only_matching NestedCatalog.INITIAL_EXPERIENCES 0 0
      (NestedCatalog.INITIAL_EXPERIENCES.get ⟨0, by decide⟩)
      ((NestedCatalog.INITIAL_EXPERIENCES.get ⟨0, by decide⟩).files.get ⟨0, by decide⟩)
      (by decide) (by decide) (by decide) (by decide)
      FlatCatalog.INITIAL_RESOURCES 0 (FlatCatalog.INITIAL_RESOURCES.get ⟨0, by decide⟩)
      (by decide) (by decide)
  exact ⟨h.2.1, h.2.2.1 1 2 (by decide), h.2.2.2.1, h.2.2.2.2 1 (by decide)⟩

/-- C2: a valid comment submission with non-empty (after trimming) text
grows the collection by exactly one, places the newly constructed comment
at the head, and keeps every pre-existing comment unchanged in its
previous order: in the nested variant the global collection becomes
`new :: old`; in the flat variant the matched resource's collection
becomes `new :: old` and every other resource's collection is untouched. -/
theorem add_comment_prepends
    (comments : List NestedCatalog.Comment) (name email text : String) (now : Nat) (date : String)
    (hname : jsTrim name ≠ "") (htext : jsTrim text ≠ "")
    (resources : List FlatCatalog.Resource) (i : Nat) (r : FlatCatalog.Resource)
    (hr : resources[i]? = some r) (t2 a2 : String) (n2 : Nat) (d2 : String)
    (ht2 : jsTrim t2 ≠ "")
    (hid : ∀ k, k < resources.length → k ≠ i →
      (resources[k]?).map FlatCatalog.Resource.id ≠ some r.id) :
    (NestedCatalog.handleSubmit comments name email text now date).length = comments.length + 1
    ∧ (NestedCatalog.handleSubmit comments name email text now date).head?
        = some (NestedCatalog.newComment name email text now date)
    ∧ (NestedCatalog.handleSubmit comments name email text now date).tail = comments
    ∧ FlatCatalog.commentsAt (FlatCatalog.handleSubmitComment resources r.id t2 a2 n2 d2) i
        = some (FlatCatalog.newComment n2 t2 a2 d2 :: r.comments)
    ∧ ∀ k, k ≠ i →
        FlatCatalog.commentsAt (FlatCatalog.handleSubmitComment resources r.id t2 a2 n2 d2) k
          = FlatCatalog.commentsAt resources k := by
  have hsub : NestedCatalog.handleSubmit comments name email text now date
      = NestedCatalog.newComment name email text now date :: comments := by
    simp [NestedCatalog.handleSubmit, hname, htext, NestedCatalog.handleAddComment]
  refine ⟨by rw [hsub]; rfl, by rw [hsub]; rfl, by rw [hsub]; rfl, ?_, ?_⟩
  · simp [FlatCatalog.handleSubmitComment, ht2, FlatCatalog.handleAddComment,
      FlatCatalog.commentsAt, List.getElem?_map, hr]
  · intro k hk
    cases hrk : resources[k]? with
    | none =>
      simp [FlatCatalog.handleSubmitComment, ht2, FlatCatalog.handleAddComment,
        FlatCatalog.commentsAt, List.getElem?_map, hrk]
    | some rk =>
      have hklen : k < resources.length := (List.getElem?_eq_some_iff.mp hrk).1
      have hne : rk.id ≠ r.id := by
        have h2 := hid k hklen hk
        rw [hrk] at h2
        simpa using h2
      simp [FlatCatalog.handleSubmitComment, ht2, FlatCatalog.handleAddComment,
        FlatCatalog.commentsAt, List.getElem?_map, hrk, hne]

/-- C2 witness: a concrete valid submission on each variant. -/
theorem add_comment_prepends_witness :
    (NestedCatalog.handleSubmit [] "Ana" "" "Muy útil" 99 "2024-01-01").length = 0 + 1
    ∧ FlatCatalog.commentsAt
        (FlatCatalog.handleSubmitComment FlatCatalog.INITIAL_RESOURCES "2" "Genial" "Luis" 100 "2024-01-02") 0
      = FlatCatalog.commentsAt FlatCatalog.INITIAL_RESOURCES 0 := by
  have h := add_comment_prepends [] "Ana" "" "Muy útil" 99 "2024-01-01" (by decide) (by decide)
      FlatCatalog.INITIAL_RESOURCES 1 (FlatCatalog.INITIAL_RESOURCES.get ⟨1, by decide⟩)
      (by decide) "Genial" "Luis" 100 "2024-01-02" (by decide) (by decide)
  exact ⟨h.1, h.2.2.2.2 0 (by decide)⟩

/-- C5: a download call whose identifier pair references no existing
target returns the catalog unchanged — a silent no-op with no error.
Three cases: the resource id matches no resource (flat variant); the
experience id matches no experience (nested variant); the file id names
no file of any experience the experience id matches, files of *other*
experiences carrying that id notwithstanding (nested variant). -/
theorem missing_id_download_noop
    (resources : List FlatCatalog.Resource) (rid : String)
    (h1 : ∀ r ∈ resources, r.id ≠ rid)
    (es : List NestedCatalog.Experience) (expId : Int) (fileId : String)
    (h2 : ∀ e ∈ es, e.id ≠ expId)
    (es2 : List NestedCatalog.Experience) (expId2 : Int) (fileId2 : String)
    (h3 : ∀ e ∈ es2, e.id = expId2 → ∀ g ∈ e.files, g.id ≠ fileId2) :
    FlatCatalog.handleDownload resources rid = resources
    ∧ NestedCatalog.handleDownload es expId fileId = es
    ∧ NestedCatalog.handleDownload es2 expId2 fileId2 = es2 := by
  refine ⟨?_, ?_, ?_⟩
  · unfold FlatCatalog.handleDownload
    conv_rhs => rw [← List.map_id resources]
    exact List.map_congr_left (fun r hr => by simp [h1 r hr])
  · unfold NestedCatalog.handleDownload
    conv_rhs => rw [← List.map_id es]
    exact List.map_congr_left (fun e he => by simp [h2 e he])
  · unfold NestedCatalog.handleDownload
    conv_rhs => rw [← List.map_id es2]
    refine List.map_congr_left (fun e he => ?_)
    by_cases hc : e.id = expId2
    · rw [if_neg (not_not_intro hc)]
      have hfiles : e.files.map
          (fun g => if g.id = fileId2 then { g with count := g.count + 1 } else g) = e.files := by
        conv_rhs => rw [← List.map_id e.files]
        exact List.map_congr_left (fun g hg => by simp [h3 e he hc g hg])
      rw [hfiles]
      rfl
    · rw [if_pos hc]
      rfl

/-- C5 witness: on the seed catalogs — unknown resource id `"99"`,
unknown experience id `99`, and the file id `"e2-f1"` which exists in
experience 2 but not in the matched experience 1. -/
theorem missing_id_download_noop_witness :
    FlatCatalog.handleDownload FlatCatalog.INITIAL_RESOURCES "99" = FlatCatalog.INITIAL_RESOURCES
    ∧ NestedCatalog.handleDownload NestedCatalog.INITIAL_EXPERIENCES 99 "e1-f1"
        = NestedCatalog.INITIAL_EXPERIENCES
    ∧ NestedCatalog.handleDownload NestedCatalog.INITIAL_EXPERIENCES 1 "e2-f1"
        = NestedCatalog.INITIAL_EXPERIENCES :=
  missing_id_download_noop FlatCatalog.INITIAL_RESOURCES "99" (by decide)
    NestedCatalog.INITIAL_EXPERIENCES 99 "e1-f1" (by decide)
    NestedCatalog.INITIAL_EXPERIENCES 1 "e2-f1" (by decide)

/-- C7 counterexample: comment ids are `Date.now().toString()`, so two
submissions observing the same clock reading (here 1000 ms) construct the
same id: the second new comment's id is already among the existing ids at
insertion time, and the resulting collection's ids are not pairwise
distinct. The claimed unconditional uniqueness fails. -/
theorem comment_id_unique_counterexample :
    (NestedCatalog.newComment "Luis" "" "segundo" 1000 "d2").id
      ∈ (NestedCatalog.handleAddComment [] "Ana" "" "primero" 1000 "d1").map
          NestedCatalog.Comment.id
    ∧ ¬ ((NestedCatalog.handleAddComment
          (NestedCatalog.handleAddComment [] "Ana" "" "primero" 1000 "d1")
          "Luis" "" "segundo" 1000 "d2").map NestedCatalog.Comment.id).Nodup := by
  refine ⟨by decide, by decide⟩

/-- Helper for the flat variant: replaying add-comment events whose
stringified clock readings are pairwise distinct and absent from the
loaded catalog keeps every resource's comment ids pairwise distinct. -/
theorem flat_replay_ids_nodup (subs : List FlatCatalog.Submission) :
    ∀ resources : List FlatCatalog.Resource,
      (subs.map (fun s => toString s.now)).Nodup →
      (∀ s ∈ subs, ∀ r ∈ resources, ∀ c ∈ r.comments, c.id ≠ toString s.now) →
      (∀ r ∈ resources, (r.comments.map FlatCatalog.Comment.id).Nodup) →
      ∀ r ∈ FlatCatalog.replay resources subs,
        (r.comments.map FlatCatalog.Comment.id).Nodup := by
  induction subs with
  | nil =>
    intro resources _ _ h3
    simpa [FlatCatalog.replay] using h3
  | cons s rest ih =>
    intro resources h1 h2 h3
    have hhead : toString s.now ∉ rest.map (fun s => toString s.now) :=
      (List.nodup_cons.mp (by simpa using h1)).1
    have htail : (rest.map (fun s => toString s.now)).Nodup :=
      (List.nodup_cons.mp (by simpa using h1)).2
    have hstep : FlatCatalog.replay resources (s :: rest)
        = FlatCatalog.replay
            (FlatCatalog.handleAddComment resources s.rid s.text s.author s.now s.date) rest := by
      simp [FlatCatalog.replay]
    rw [hstep]
    refine ih _ htail ?_ ?_
    · intro t ht r' hr' c hc
      simp only [FlatCatalog.handleAddComment, List.mem_map] at hr'
      obtain ⟨r, hr, rfl⟩ := hr'
      by_cases hmatch : r.id = s.rid
      · simp only [hmatch, ite_true, if_true, eq_self_iff_true, List.mem_cons] at hc
        rcases hc with rfl | hc
        · intro hEq
          exact hhead (List.mem_map.mpr
            ⟨t, ht, by simpa [FlatCatalog.newComment] using hEq.symm⟩)
        · exact h2 t (List.mem_cons_of_mem s ht) r hr c hc
      · simp only [hmatch, ite_false, if_false] at hc
        exact h2 t (List.mem_cons_of_mem s ht) r hr c hc
    · intro r' hr'
      simp only [FlatCatalog.handleAddComment, List.mem_map] at hr'
      obtain ⟨r, hr, rfl⟩ := hr'
      by_cases hmatch : r.id = s.rid
      · simp only [hmatch, ite_true, if_true, eq_self_iff_true, List.map_cons]
        rw [List.nodup_cons]
        refine ⟨?_, h3 r hr⟩
        intro hmem
        obtain ⟨c, hc, hcid⟩ := List.mem_map.mp hmem
        exact h2 s (List.mem_cons_self s rest) r hr c hc hcid
      · simp only [hmatch, ite_false, if_false]
        exact h3 r hr

/-- C7 (amended): comment ids are `Date.now().toString()`; provided the
submissions' stringified clock readings are pairwise distinct and
distinct from every comment id already present in the loaded state, each
new id is unique among the ids existing at its insertion: replaying any
sequence of add-comment events keeps the global collection's ids (nested
variant) and every resource's collection's ids (flat variant) pairwise
distinct. -/
theorem comment_ids_unique_of_distinct_clock
    (subs : List NestedCatalog.Submission) (initial : List NestedCatalog.Comment)
    (h1 : (subs.map (fun s => toString s.now)).Nodup)
    (h2 : ∀ s ∈ subs, ∀ c ∈ initial, c.id ≠ toString s.now)
    (h3 : (initial.map NestedCatalog.Comment.id).Nodup)
    (fsubs : List FlatCatalog.Submission) (resources : List FlatCatalog.Resource)
    (g1 : (fsubs.map (fun s => toString s.now)).Nodup)
    (g2 : ∀ s ∈ fsubs, ∀ r ∈ resources, ∀ c ∈ r.comments, c.id ≠ toString s.now)
    (g3 : ∀ r ∈ resources, (r.comments.map FlatCatalog.Comment.id).Nodup) :
    ((NestedCatalog.replayFrom initial subs).map NestedCatalog.Comment.id).Nodup
    ∧ ∀ r ∈ FlatCatalog.replay resources fsubs,
        (r.comments.map FlatCatalog.Comment.id).Nodup := by
  refine ⟨?_, flat_replay_ids_nodup fsubs resources g1 g2 g3⟩
  unfold NestedCatalog.replayFrom
  rw [foldl_addComment_map_id subs initial, List.nodup_append]
  refine ⟨by simpa [List.nodup_reverse] using h1, h3, ?_⟩
  intro x hx hx2
  rw [List.mem_reverse, List.mem_map] at hx
  obtain ⟨s, hs, rfl⟩ := hx
  obtain ⟨c, hc, hcid⟩ := List.mem_map.mp hx2
  exact h2 s hs c hc hcid

/-- C7 witness: two nested-variant submissions at distinct clock readings
over a loaded comment, and two flat-variant submissions over the seed
catalog (whose collections already hold ids `"c1"` and `"c2"`). -/
theorem comment_ids_unique_of_distinct_clock_witness :
    ((NestedCatalog.replayFrom
        [ { id := "c0", author := "A", email := none, text := "t", date := "d" } ]
        [ { name := "Ana", email := "", text := "a", now := 1, date := "d1" }
        , { name := "Luis", email := "", text := "b", now := 2, date := "d2" } ]).map
      NestedCatalog.Comment.id).Nodup
    ∧ ∀ r ∈ FlatCatalog.replay FlatCatalog.INITIAL_RESOURCES
        [ { rid := "1", text := "x", author := "Ana", now := 3, date := "d3" }
        , { rid := "2", text := "y", author := "Luis", now := 4, date := "d4" } ],
        (r.comments.map FlatCatalog.Comment.id).Nodup :=
  comment_ids_unique_of_distinct_clock
    [ { name := "Ana", email := "", text := "a", now := 1, date := "d1" }
    , { name := "Luis", email := "", text := "b", now := 2, date := "d2" } ]
    [ { id := "c0", author := "A", email := none, text := "t", date := "d" } ]
    (by decide) (by decide) (by decide)
    [ { rid := "1", text := "x", author := "Ana", now := 3, date := "d3" }
    , { rid := "2", text := "y", author := "Luis", now := 4, date := "d4" } ]
    FlatCatalog.INITIAL_RESOURCES (by decide) (by decide) (by decide)

/-- C10: frame effects. The flat-variant download mutation preserves
every `Resource` field except `downloadCount` (id, title, description,
type, url and the whole comment collection) at every position; the
flat-variant add-comment mutation preserves every field except
`comments` (download counters included); the nested-variant download
mutation preserves every `Experience` field except its files' counters
(experience id, title, audio reference, and each file's id, label and
filename). -/
theorem mutations_frame
    (resources : List FlatCatalog.Resource) (rid : String) (i : Nat)
    (rid2 t a : String) (n : Nat) (d : String)
    (es : List NestedCatalog.Experience) (expId : Int) (fileId : String) (k : Nat) :
    ((FlatCatalog.handleDownload resources rid)[i]?).map FlatCatalog.frameWithoutCount
      = (resources[i]?).map FlatCatalog.frameWithoutCount
    ∧ ((FlatCatalog.handleAddComment resources rid2 t a n d)[i]?).map
          FlatCatalog.frameWithoutComments
      = (resources[i]?).map FlatCatalog.frameWithoutComments
    ∧ ((NestedCatalog.handleDownload es expId fileId)[k]?).map NestedCatalog.expFrame
      = (es[k]?).map NestedCatalog.expFrame := by
  refine ⟨?_, ?_, ?_⟩
  · simp only [FlatCatalog.handleDownload, List.getElem?_map]
    cases hr : resources[i]? with
    | none => rfl
    | some r =>
      simp only [Option.map_some']
      by_cases hc : r.id = rid
      · simp [FlatCatalog.frameWithoutCount, hc]
      · simp [FlatCatalog.frameWithoutCount, hc]
  · simp only [FlatCatalog.handleAddComment, List.getElem?_map]
    cases hr : resources[i]? with
    | none => rfl
    | some r =>
      simp only [Option.map_some']
      by_cases hc : r.id = rid2
      · simp [FlatCatalog.frameWithoutComments, hc]
      · simp [FlatCatalog.frameWithoutComments, hc]
  · simp only [NestedCatalog.handleDownload, List.getElem?_map]
    cases he : es[k]? with
    | none => rfl
    | some e =>
      simp only [Option.map_some']
      by_cases hc : e.id = expId
      · rw [if_neg (not_not_intro hc)]
        have hfiles : ∀ fs : List NestedCatalog.DownloadableFile,
            (fs.map (fun g => if g.id = fileId then { g with count := g.count + 1 } else g)).map
                NestedCatalog.fileFrame
              = fs.map NestedCatalog.fileFrame := by
          intro fs
          induction fs with
          | nil => rfl
          | cons g fs ih =>
            by_cases hg : g.id = fileId <;> simp [NestedCatalog.fileFrame, hg, ih]
        simp [NestedCatalog.expFrame, hfiles]
      · rw [if_pos hc]
